import Mathlib

/-!
Verification of the live-transcript-worker storage, chunking and text-processing
code against its natural-language specification.  Python code is shallowly
embedded: dictionaries with possibly-missing keys become structures of `Option`
fields, fallible operations return `Except`, byte strings become `List Nat`,
and the relay's HTTP responses are passed in as parameters.
-/

set_option maxRecDepth 10000

/-- A Python value as it appears in the dynamically typed call sites we model
(only strings and integers occur there). -/
inductive PyVal where
  | str (s : String)
  | int (n : Int)
deriving DecidableEq, Repr

/-- `custom_types.MediaUploadObject`: fields `key`, `stream_id`, `id`, `path`
(all dynamically typed in Python). -/
structure MediaUploadObject where
  key : PyVal
  stream_id : PyVal
  id : PyVal
  path : PyVal
deriving DecidableEq, Repr

/-- Python call `MediaUploadObject(...)` with a list of positional arguments.
`__init__(self, key, stream_id, id, path)` requires exactly four arguments;
any other arity raises `TypeError` (modelled as `Except.error`). -/
def MediaUploadObject.init : List PyVal → Except String MediaUploadObject
  | [k, sid, i, p] => .ok ⟨k, sid, i, p⟩
  | _ => .error "TypeError: MediaUploadObject.__init__ wrong number of positional arguments"

/-- `Storage._get_queue_folder`: `tmp/<key>/queue` (project root elided). -/
def queue_folder (key : String) : String := "tmp/" ++ key ++ "/queue"

/-- The media file path written by `Storage._enqueue_media`:
`<queue folder>/media_<line_id>.bin`. -/
def media_path (key : String) (line_id : Int) : String :=
  queue_folder key ++ "/media_" ++ toString line_id ++ ".bin"

/-- One transcript segment: `{'timestamp': int, 'text': str}`. -/
structure Seg where
  timestamp : Int
  text : String
deriving DecidableEq, Repr

/-- One transcript line dictionary.  `mediaAvailable` is absent (`none`) until
`add_new_line` sets it. -/
structure Line where
  id : Int
  timestamp : Int
  mediaAvailable : Option Bool
  segments : List Seg
deriving DecidableEq, Repr

/-- The per-key persisted dictionary stored in `tmp/<key>/data.marshal`.
A `none` field models a key that is absent from the Python dict. -/
structure StateDict where
  activeId : Option String
  activeTitle : Option String
  startTime : Option String
  mediaType : Option String
  isLive : Option Bool
  transcript : Option (List Line)
deriving DecidableEq, Repr

/-- A line of the plain-text transcript fallback file.  The exact textual
rendering is irrelevant to every claim, so a line is kept structured: the
banner written by `activate`, the `[HH:MM:SS]` form used when `startTime > 0`,
and the `datetime.fromtimestamp` form otherwise. -/
inductive TextLine where
  | banner (title id startTime : String)
  | rel (h m s : Int) (texts : List String)
  | abs (epoch : Int) (texts : List String)
deriving DecidableEq, Repr

/-- Observable relay/storage events, used to state ordering claims. -/
inductive Ev where
  | activatePost (key id : String)
  | deactivatePost (key id : String)
  | linePost (key : String) (lineId : Int)
  | syncPost (key : String) (data : StateDict)
  | enqueueMedia (key : String) (lineId : Int)
  | mediaPost (key id : PyVal)
deriving DecidableEq

/-- The state the Storage code manipulates: per-key `data.marshal` dictionaries,
binary files by path, per-key transcript text files, existing directories and
the in-process upload queue. -/
structure Sys where
  dataFiles : String → Option StateDict
  files : String → Option (List Nat)
  dirs : String → Bool
  textFiles : String → List TextLine
  uploadQueue : List MediaUploadObject

/-- `Storage._file_to_dict`: on any read failure (missing file included)
return the default `{"activeId": ""}`. -/
def file_to_dict (stored : Option StateDict) : StateDict :=
  match stored with
  | some d => d
  | none => { activeId := some "", activeTitle := none, startTime := none,
              mediaType := none, isLive := none, transcript := none }

/-- `Storage._get_active_id`: `self._file_to_dict(key)["activeId"]`; a missing
key would raise `KeyError`. -/
def get_active_id (stored : Option StateDict) : Except String String :=
  match (file_to_dict stored).activeId with
  | some a => .ok a
  | none => .error "KeyError: activeId"

/-- `Storage._enqueue_media`.  Empty or `None` bytes: return immediately.
Otherwise write the bytes to `queue/<key>/media_<line_id>.bin`, then construct
`MediaUploadObject(key, line_id, media_path)` — three positional arguments for
a four-argument constructor — and put it on the queue; the whole block is
inside `try/except Exception`, so the raised `TypeError` is swallowed after
the file write.  The `Ev.enqueueMedia` event marks the call itself. -/
def enqueue_media (st : Sys) (key : String) (line_id : Int) (raw : Option (List Nat)) :
    Sys × List Ev :=
  match raw with
  | none => (st, [.enqueueMedia key line_id])
  | some b =>
    if b.length = 0 then (st, [.enqueueMedia key line_id])
    else
      let path := media_path key line_id
      let st1 := { st with files := fun p => if p = path then some b else st.files p }
      match MediaUploadObject.init [.str key, .int line_id, .str path] with
      | .ok m => ({ st1 with uploadQueue := st1.uploadQueue ++ [m] }, [.enqueueMedia key line_id])
      | .error _ => (st1, [.enqueueMedia key line_id])

/-- The empty starting system: no files, no directories, empty queue. -/
def emptySys : Sys :=
  { dataFiles := fun _ => none, files := fun _ => none, dirs := fun _ => false,
    textFiles := fun _ => [], uploadQueue := [] }

/-- C1 scenario: enqueue three raw bytes for key "A", line 0. -/
def c1After : Sys := (enqueue_media emptySys "A" 0 (some [1, 2, 3])).1

/-- **C1** (code_bug evidence).  `_enqueue_media` with key "A", line id 0 and
non-empty bytes `[1,2,3]` writes the bytes to `tmp/A/queue/media_0.bin` but
appends NO record to the upload queue: the three-positional-argument call to
the four-argument `MediaUploadObject` constructor raises `TypeError`, which the
surrounding `except Exception` swallows after the file write.  Empty or `None`
bytes are a no-op as claimed. -/
theorem enqueue_media_writes_file_but_drops_record :
    c1After.files (media_path "A" 0) = some [1, 2, 3] ∧
    c1After.uploadQueue = [] ∧
    MediaUploadObject.init [.str "A", .int 0, .str (media_path "A" 0)] =
      .error "TypeError: MediaUploadObject.__init__ wrong number of positional arguments" ∧
    enqueue_media emptySys "A" 0 none = (emptySys, [.enqueueMedia "A" 0]) ∧
    enqueue_media emptySys "A" 0 (some []) = (emptySys, [.enqueueMedia "A" 0]) := by
  refine ⟨?_, ?_, rfl, rfl, rfl⟩ <;>
    simp [c1After, enqueue_media, MediaUploadObject.init, emptySys]

/-- Python `int(s)` restricted to the plain decimal forms that occur in queue
file names: optional sign followed by at least one ASCII digit; anything else
raises `ValueError` (`none`). -/
def pyInt? (s : String) : Option Int :=
  let core (ds : List Char) : Option Nat :=
    if ds = [] ∨ ¬ ds.all Char.isDigit then none
    else some (ds.foldl (fun a c => a * 10 + (c.toNat - 48)) 0)
  match s.data with
  | '-' :: ds => (core ds).map (fun n => -(n : Int))
  | '+' :: ds => (core ds).map (fun n => (n : Int))
  | ds => (core ds).map (fun n => (n : Int))

/-- `filename.startswith("media_") and filename.endswith(".bin")` followed by
`int(filename[6:-4])`; a `ValueError` skips the file (`none`). -/
def parse_media_filename (name : String) : Option Int :=
  if "media_".data.isPrefixOf name.data && ".bin".data.isSuffixOf name.data then
    pyInt? (String.mk ((name.data.drop 6).dropLast.dropLast.dropLast.dropLast))
  else none

/-- Lexicographic comparison of character code points: Python `str < str`. -/
def strLt (a b : String) : Bool :=
  let rec go : List Char → List Char → Bool
    | [], [] => false
    | [], _ :: _ => true
    | _ :: _, [] => false
    | c :: cs, d :: ds =>
      if c.toNat < d.toNat then true
      else if d.toNat < c.toNat then false
      else go cs ds
  go a.data b.data

/-- Python tuple order on `(line_id, path)` used by `files.sort()`. -/
def tupLe (a b : Int × String) : Bool :=
  a.1 < b.1 || (a.1 = b.1 && ! strLt b.2 a.2)

/-- Insertion sort implementing `list.sort()` on `(line_id, path)` tuples. -/
def insortTup (x : Int × String) : List (Int × String) → List (Int × String)
  | [] => [x]
  | y :: ys => if tupLe x y then x :: y :: ys else y :: insortTup x ys

/-- `files.sort()`. -/
def sortTups (l : List (Int × String)) : List (Int × String) :=
  l.foldr insortTup []

/-- Insertion sort on strings implementing `sorted(all_keys_files.keys())`. -/
def insortStr (x : String) : List String → List String
  | [] => [x]
  | y :: ys => if ! strLt y x then x :: y :: ys else y :: insortStr x ys

/-- `sorted(keys)`. -/
def sortStrs (l : List String) : List String :=
  l.foldr insortStr []

/-- Assoc-list lookup for the `all_keys_files` dict. -/
def lookupFiles (m : List (String × List (Int × String))) (k : String) :
    List (Int × String) :=
  match m.find? (fun e => e.1 = k) with
  | some e => e.2
  | none => []

/-- Dict assignment `all_keys_files[key] = files` (overwrite on duplicate). -/
def setFiles (m : List (String × List (Int × String))) (k : String)
    (v : List (Int × String)) : List (String × List (Int × String)) :=
  if m.any (fun e => e.1 = k) then
    m.map (fun e => if e.1 = k then (k, v) else e)
  else m ++ [(k, v)]

/-- The per-key scan of `Storage._process_old_queue_files`: for each streamer
with a `key` whose queue directory exists, collect `(line_id, full path)` for
every parsable `media_<id>.bin` entry and sort; keys with no files are not
added to the dict. -/
def collect_queue_files (streamers : List (Option String))
    (listdir : String → Option (List String)) :
    List (String × List (Int × String)) :=
  streamers.foldl
    (fun acc okey =>
      match okey with
      | none => acc
      | some key =>
        match listdir (queue_folder key) with
        | none => acc
        | some names =>
          let files := names.foldl
            (fun fs name =>
              match parse_media_filename name with
              | some lineId => fs ++ [(lineId, queue_folder key ++ "/" ++ name)]
              | none => fs) []
          if files = [] then acc else setFiles acc key (sortTups files))
    []

/-- Inner loop of the round-robin interleave: `for key in sorted_keys`, and if
`i < len(all_keys_files[key])`, construct `MediaUploadObject(key, line_id,
path)` — three positional arguments — and put it on the queue.  The
`TypeError` from the constructor is NOT caught here. -/
def interleave_inner (m : List (String × List (Int × String))) (i : Nat) :
    List String → List MediaUploadObject → Except String (List MediaUploadObject)
  | [], acc => .ok acc
  | k :: ks, acc =>
    if h : i < (lookupFiles m k).length then
      let e := (lookupFiles m k).get ⟨i, h⟩
      match MediaUploadObject.init [.str k, .int e.1, .str e.2] with
      | .ok obj => interleave_inner m i ks (acc ++ [obj])
      | .error msg => .error msg
    else interleave_inner m i ks acc

/-- Outer loop of the interleave: `for i in range(max_files)`. -/
def interleave_go (m : List (String × List (Int × String))) (keys : List String) :
    List Nat → List MediaUploadObject → Except String (List MediaUploadObject)
  | [], acc => .ok acc
  | i :: is, acc =>
    match interleave_inner m i keys acc with
    | .ok acc2 => interleave_go m keys is acc2
    | .error msg => .error msg

/-- The round-robin interleave of `_process_old_queue_files`: for `i` in
`range(max_files)`, for each key in sorted-key order, enqueue that key's
`i`-th file if present.  An exception propagates out of `Storage.__init__`. -/
def interleave_queue_files (m : List (String × List (Int × String))) :
    Except String (List MediaUploadObject) :=
  let sorted_keys := sortStrs (m.map (·.1))
  let max_files := (m.map (fun e => e.2.length)).foldl max 0
  interleave_go m sorted_keys (List.range max_files) []

/-- `Storage._process_old_queue_files`, run during `Storage.__init__`:
returns the records added to the upload queue, or the uncaught exception. -/
def process_old_queue_files (streamers : List (Option String))
    (listdir : String → Option (List String)) :
    Except String (List MediaUploadObject) :=
  if streamers = [] then .ok []
  else
    let m := collect_queue_files streamers listdir
    if m = [] then .ok []
    else interleave_queue_files m

/-- Whether an `Except` value is an uncaught exception. -/
def isError : Except String α → Bool
  | .error _ => true
  | .ok _ => false

/-- The C2 scenario directory listing: `tmp/A/queue` holds `media_10.bin`,
`media_11.bin`, `media_12.bin`; `tmp/B/queue` holds `media_5.bin`. -/
def c2Listdir : String → Option (List String) := fun p =>
  if p = "tmp/A/queue" then some ["media_10.bin", "media_11.bin", "media_12.bin"]
  else if p = "tmp/B/queue" then some ["media_5.bin"]
  else none

/-- **C2** (code_bug evidence).  With keys A and B configured and the scenario
queue files on disk, `_process_old_queue_files` raises an uncaught `TypeError`
at the very first recovered file — `MediaUploadObject(key, line_id, path)`
passes three positional arguments to the four-argument constructor — so
`Storage` construction fails instead of producing the upload-queue order
`(A,10), (B,5), (A,11), (A,12)`.  The scan itself does collect and sort the
files exactly as claimed. -/
theorem process_old_queue_files_crashes :
    isError (process_old_queue_files [some "A", some "B"] c2Listdir) = true ∧
    collect_queue_files [some "A", some "B"] c2Listdir =
      [("A", [(10, "tmp/A/queue/media_10.bin"), (11, "tmp/A/queue/media_11.bin"),
              (12, "tmp/A/queue/media_12.bin")]),
       ("B", [(5, "tmp/B/queue/media_5.bin")])] := by
  constructor <;> decide

/-- `custom_types.StreamInfoObject` (fields used by `Storage`). -/
structure StreamInfoObject where
  url : String
  is_live : Bool
  stream_id : String
  stream_title : String
  start_time : String
  key : String
  media_type : String
deriving DecidableEq, Repr

/-- `Storage._clear_queue_folder`: `shutil.rmtree` on the queue folder (the
folder and everything under it disappear) followed by `os.makedirs` (the empty
folder is recreated). -/
def clear_queue_folder (st : Sys) (key : String) : Sys :=
  let qf := queue_folder key
  { st with
    files := fun p => if (qf ++ "/").data.isPrefixOf p.data then none else st.files p,
    dirs := fun d =>
      if d = qf then true
      else if (qf ++ "/").data.isPrefixOf d.data then false
      else st.dirs d }

/-- `Storage.sync_server`: POST the full per-key state to `/sync` when requests
are enabled; the response only affects logging. -/
def sync_server (enable : Bool) (st : Sys) (key : String) (data : StateDict) :
    Sys × List Ev :=
  (st, if enable then [.syncPost key data] else [])

/-- `Storage.activate`.  New stream id: replace the on-disk state with a fresh
dict, truncate the transcript text file to a banner when requests are
disabled, drain the (global) in-memory upload queue and clear this key's
queue folder.  Same id: update `isLive`, `activeTitle`, `startTime`.  Both
branches then POST `/activate` when enabled. -/
def activate (enable : Bool) (st : Sys) (info : StreamInfoObject) :
    Except String (Sys × List Ev) :=
  match get_active_id (st.dataFiles info.key) with
  | .error e => .error e
  | .ok active_id =>
    let evs : List Ev := if enable then [.activatePost info.key info.stream_id] else []
    if info.stream_id ≠ active_id then
      let d : StateDict :=
        { activeId := some info.stream_id, activeTitle := some info.stream_title,
          startTime := some info.start_time, mediaType := some info.media_type,
          isLive := some true, transcript := some [] }
      let st1 := { st with
        dataFiles := fun k => if k = info.key then some d else st.dataFiles k }
      let st2 :=
        if enable then st1
        else { st1 with textFiles := fun k =>
                 if k = info.key then
                   [.banner info.stream_title info.stream_id info.start_time]
                 else st1.textFiles k }
      let st3 := { st2 with uploadQueue := [] }
      .ok (clear_queue_folder st3 info.key, evs)
    else
      let data := file_to_dict (st.dataFiles info.key)
      let data :=
        { data with
          isLive := some true
          activeTitle := some info.stream_title
          startTime := some info.start_time }
      .ok ({ st with
             dataFiles := fun k => if k = info.key then some data else st.dataFiles k },
           evs)

/-- `Storage.deactivate`: set `isLive = False` on disk; POST `/deactivate`
when enabled and the stream id is non-empty. -/
def deactivate (enable : Bool) (st : Sys) (key stream_id : String) : Sys × List Ev :=
  let data := file_to_dict (st.dataFiles key)
  let data := { data with isLive := some false }
  ({ st with dataFiles := fun k => if k = key then some data else st.dataFiles k },
   if enable && stream_id != "" then [.deactivatePost key stream_id] else [])

/-- `transcript[-1]["id"]` with the `-1` default of `add_new_line`. -/
def lastId (t : List Line) : Int :=
  match t.getLast? with
  | some l => l.id
  | none => -1

/-- The texts collected from a line's segments in the relay-disabled branch of
`add_new_line` (`if "segments" in line` / `if "text" in segment` always hold
for lines built by `process_audio`). -/
def lineTexts (line : Line) : List String :=
  line.segments.map (·.text)

/-- `Storage.add_new_line`.  Reads the per-key dict (`KeyError` when the
`transcript` key is absent), assigns `id = last_id + 1` and
`mediaAvailable = False`, appends and persists.  Relay enabled: POST `/line`;
`resp` is the relay's status code (`none` models `httpx.RequestError`).  On
409, call `sync_server` and then `_enqueue_media`; on 200 just
`_enqueue_media`; other codes only warn.  Relay disabled: append
`[HH:MM:SS] <texts>` to the text file, where the offset uses
`int(startTime)` (`ValueError` when that string is not an integer literal)
and Python floor division. -/
def add_new_line (enable : Bool) (st : Sys) (key : String) (line : Line)
    (raw : Option (List Nat)) (resp : Option Nat) :
    Except String (Sys × List Ev) :=
  let data := file_to_dict (st.dataFiles key)
  match data.transcript with
  | none => .error "KeyError: transcript"
  | some transcript =>
    let line := { line with id := lastId transcript + 1, mediaAvailable := some false }
    let data := { data with transcript := some (transcript ++ [line]) }
    let st1 := { st with
      dataFiles := fun k => if k = key then some data else st.dataFiles k }
    if enable then
      match resp with
      | none => .ok (st1, [.linePost key line.id])
      | some code =>
        if code = 409 then
          let (st2, evs2) := sync_server enable st1 key data
          let (st3, evs3) := enqueue_media st2 key line.id raw
          .ok (st3, .linePost key line.id :: (evs2 ++ evs3))
        else if code ≠ 200 then
          .ok (st1, [.linePost key line.id])
        else
          let (st3, evs3) := enqueue_media st1 key line.id raw
          .ok (st3, .linePost key line.id :: evs3)
    else
      match pyInt? ((file_to_dict (st1.dataFiles key)).startTime.getD "0") with
      | none => .error "ValueError: invalid literal for int"
      | some start_time =>
        let total_seconds := line.timestamp - start_time
        let tline : TextLine :=
          if 0 < start_time then
            .rel (total_seconds.fdiv 3600) ((total_seconds.emod 3600).fdiv 60)
              ((total_seconds.emod 3600).emod 60) (lineTexts line)
          else
            .abs total_seconds (lineTexts line)
        .ok ({ st1 with textFiles := fun k =>
                 if k = key then st1.textFiles k ++ [tline] else st1.textFiles k },
             [])

/-- `Storage._media_upload_worker`, one iteration: dequeue the head record; if
its path exists, POST the media when enabled, then delete the file.  `none`
when the queue is empty (the real worker blocks). -/
def worker_step (enable : Bool) (st : Sys) : Option (Sys × List Ev) :=
  match st.uploadQueue with
  | [] => none
  | item :: rest =>
    let st1 := { st with uploadQueue := rest }
    match item.path with
    | .str p =>
      match st1.files p with
      | some _ =>
        some ({ st1 with files := fun q => if q = p then none else st1.files q },
              if enable then [.mediaPost item.key item.id] else [])
      | none => some (st1, [])
    | _ => some (st1, [])

/-- **C4**.  `activate` with a new stream id replaces the persisted state with
exactly the fresh dict and empties the key's on-disk queue directory; with the
same stream id it only updates `isLive`, `activeTitle` and `startTime`,
leaving the transcript, the other fields, and the file system untouched. -/
theorem activate_state_transition (en : Bool) (st : Sys) (info : StreamInfoObject)
    (a : String) (h : (file_to_dict (st.dataFiles info.key)).activeId = some a) :
    ∃ st' evs, activate en st info = .ok (st', evs) ∧
      (info.stream_id ≠ a →
        st'.dataFiles info.key = some
          { activeId := some info.stream_id, activeTitle := some info.stream_title,
            startTime := some info.start_time, mediaType := some info.media_type,
            isLive := some true, transcript := some [] } ∧
        st'.dirs (queue_folder info.key) = true ∧
        ∀ p, (queue_folder info.key ++ "/").data.isPrefixOf p.data = true →
          st'.files p = none) ∧
      (info.stream_id = a →
        st'.dataFiles info.key = some
          { file_to_dict (st.dataFiles info.key) with
            isLive := some true
            activeTitle := some info.stream_title
            startTime := some info.start_time } ∧
        st'.files = st.files ∧ st'.dirs = st.dirs) := by
  unfold activate get_active_id
  rw [h]
  show ∃ st' evs, (if info.stream_id ≠ a then _ else _) = _ ∧ _
  by_cases hid : info.stream_id = a
  · rw [if_neg (fun hne => hne hid)]
    refine ⟨_, _, rfl, fun hne => absurd hid hne, fun _ => ⟨?_, rfl, rfl⟩⟩
    simp
  · rw [if_pos hid]
    refine ⟨_, _, rfl, fun _ => ⟨?_, ?_, ?_⟩, fun heq => absurd heq hid⟩
    · cases en <;> simp [clear_queue_folder]
    · cases en <;> simp [clear_queue_folder]
    · intro p hp
      simp at hp
      cases en <;> simp [clear_queue_folder, hp]

/-- Concrete stored dict for the C4 witness. -/
def c4Dict : StateDict :=
  { activeId := some "old", activeTitle := some "T", startTime := some "5",
    mediaType := some "audio", isLive := some true, transcript := some [] }

/-- Concrete system for the C4 witness. -/
def c4St : Sys :=
  { emptySys with dataFiles := fun k => if k = "k" then some c4Dict else none }

/-- Concrete stream info for the C4 witness. -/
def c4Info : StreamInfoObject :=
  { url := "u", is_live := true, stream_id := "new", stream_title := "T2",
    start_time := "6", key := "k", media_type := "audio" }

/-- Witness for C4 at a concrete state whose stored active id is "old". -/
theorem activate_state_transition_witness :
    ∃ st' evs, activate true c4St c4Info = .ok (st', evs) ∧
      (c4Info.stream_id ≠ "old" →
        st'.dataFiles c4Info.key = some
          { activeId := some c4Info.stream_id, activeTitle := some c4Info.stream_title,
            startTime := some c4Info.start_time, mediaType := some c4Info.media_type,
            isLive := some true, transcript := some [] } ∧
        st'.dirs (queue_folder c4Info.key) = true ∧
        ∀ p, (queue_folder c4Info.key ++ "/").data.isPrefixOf p.data = true →
          st'.files p = none) ∧
      (c4Info.stream_id = "old" →
        st'.dataFiles c4Info.key = some
          { file_to_dict (c4St.dataFiles c4Info.key) with
            isLive := some true
            activeTitle := some c4Info.stream_title
            startTime := some c4Info.start_time } ∧
        st'.files = c4St.files ∧ st'.dirs = c4St.dirs) :=
  activate_state_transition true c4St c4Info "old" rfl

/-- A fresh transcript line as built by `process_audio` (id sentinel `-1`). -/
def c10Line : Line := { id := -1, timestamp := 100, mediaAvailable := none, segments := [] }

/-- **C10** (counterexample).  On a key with no prior on-disk state,
`add_new_line` does NOT proceed on the default `{"activeId": ""}` state: the
access `data["transcript"]` raises `KeyError`, because the default dict has no
`transcript` key. -/
theorem add_new_line_fails_on_default_state :
    add_new_line true emptySys "k" c10Line (some [1]) (some 200) =
      .error "KeyError: transcript" := rfl

/-- **C10** (amended).  State-file reads are total: a missing `data.marshal`
yields the default `{"activeId": ""}`, `_get_active_id` returns `""`, and
`activate` and `deactivate` proceed on that default state; `add_new_line`
however raises `KeyError` there, since the default dict has no
`transcript` key. -/
theorem default_state_reads_total (st : Sys) (key : String)
    (h : st.dataFiles key = none) :
    file_to_dict (st.dataFiles key) =
      { activeId := some "", activeTitle := none, startTime := none,
        mediaType := none, isLive := none, transcript := none } ∧
    get_active_id (st.dataFiles key) = .ok "" ∧
    (∀ en info, info.key = key → ∃ st' evs, activate en st info = .ok (st', evs)) ∧
    (∀ en sid, ((deactivate en st key sid).1.dataFiles key) = some
      { activeId := some "", activeTitle := none, startTime := none,
        mediaType := none, isLive := some false, transcript := none }) ∧
    (∀ en line raw resp, add_new_line en st key line raw resp =
      .error "KeyError: transcript") := by
  rw [h]
  refine ⟨rfl, rfl, ?_, ?_, ?_⟩
  · intro en info hkey
    subst hkey
    unfold activate get_active_id
    rw [h]
    show ∃ st' evs, (if info.stream_id ≠ "" then _ else _) = Except.ok (st', evs)
    by_cases hid : info.stream_id = ""
    · rw [if_neg (fun hne => hne hid)]
      exact ⟨_, _, rfl⟩
    · rw [if_pos hid]
      exact ⟨_, _, rfl⟩
  · intro en sid
    unfold deactivate
    rw [h]
    simp [file_to_dict]
  · intro en line raw resp
    unfold add_new_line
    rw [h]
    rfl

/-- Witness for the C10 amended theorem at the empty system. -/
theorem default_state_reads_total_witness :
    file_to_dict (emptySys.dataFiles "k") =
      { activeId := some "", activeTitle := none, startTime := none,
        mediaType := none, isLive := none, transcript := none } ∧
    get_active_id (emptySys.dataFiles "k") = .ok "" ∧
    (∀ en info, info.key = "k" →
      ∃ st' evs, activate en emptySys info = .ok (st', evs)) ∧
    (∀ en sid, ((deactivate en emptySys "k" sid).1.dataFiles "k") = some
      { activeId := some "", activeTitle := none, startTime := none,
        mediaType := none, isLive := some false, transcript := none }) ∧
    (∀ en line raw resp, add_new_line en emptySys "k" line raw resp =
      .error "KeyError: transcript") :=
  default_state_reads_total emptySys "k" rfl

/-- `_enqueue_media` never changes the per-key dictionaries. -/
theorem enqueue_media_dataFiles (st : Sys) (k : String) (n : Int)
    (raw : Option (List Nat)) : (enqueue_media st k n raw).1.dataFiles = st.dataFiles := by
  cases raw <;> simp [enqueue_media, MediaUploadObject.init]
  split <;> rfl

/-- Because the three-argument constructor call always raises, `_enqueue_media`
never changes the upload queue either. -/
theorem enqueue_media_uploadQueue (st : Sys) (k : String) (n : Int)
    (raw : Option (List Nat)) : (enqueue_media st k n raw).1.uploadQueue = st.uploadQueue := by
  cases raw <;> simp [enqueue_media, MediaUploadObject.init]
  split <;> rfl

/-- The events of an `_enqueue_media` call. -/
theorem enqueue_media_events (st : Sys) (k : String) (n : Int)
    (raw : Option (List Nat)) : (enqueue_media st k n raw).2 = [.enqueueMedia k n] := by
  cases raw <;> simp [enqueue_media, MediaUploadObject.init]
  split <;> rfl

/-- Dense ids: `transcript[i].id == i`. -/
def denseIds (t : List Line) : Prop :=
  ∀ i : Fin t.length, (t.get i).id = (i.val : Int)

/-- Every persisted per-key dict has a dense transcript. -/
def InvDense (st : Sys) : Prop :=
  ∀ k d, st.dataFiles k = some d → ∀ t, d.transcript = some t → denseIds t

theorem denseIds_nil : denseIds [] := fun i => absurd i.isLt (by simp)

theorem denseIds_lastId {t : List Line} (ht : denseIds t) :
    lastId t = (t.length : Int) - 1 := by
  rcases t with _ | ⟨a, as⟩
  · simp [lastId]
  · have hne : a :: as ≠ [] := by simp
    have hget := ht ⟨(a :: as).length - 1, by simp⟩
    rw [List.get_eq_getElem] at hget
    simp only [lastId, List.getLast?_eq_getLast_of_ne_nil hne, List.getLast_eq_getElem]
    refine hget.trans ?_
    simp only [List.length_cons]
    omega

theorem denseIds_append {t : List Line} {l : Line} (ht : denseIds t)
    (hl : l.id = (t.length : Int)) : denseIds (t ++ [l]) := by
  rintro ⟨i, hi⟩
  simp only [List.length_append, List.length_cons, List.length_nil] at hi
  by_cases hlt : i < t.length
  · have := ht ⟨i, hlt⟩
    rw [List.get_eq_getElem] at this ⊢
    rw [List.getElem_append_left hlt]
    exact this
  · have hi' : i = t.length := by omega
    subst hi'
    rw [List.get_eq_getElem, List.getElem_append_right (Nat.le_refl _)]
    simpa using hl

/-- The line as persisted by `add_new_line`: `id = last_id + 1`,
`mediaAvailable = False`. -/
def appendedLine (line : Line) (t : List Line) : Line :=
  { line with id := lastId t + 1, mediaAvailable := some false }

/-- The per-key dict as persisted by `add_new_line`. -/
def appendedDict (d : StateDict) (line : Line) : StateDict :=
  let t := d.transcript.getD []
  { d with transcript := some (t ++ [appendedLine line t]) }

/-- The successful outcomes of `add_new_line`: the per-key dict gains exactly
the new line with `id = last_id + 1` and `mediaAvailable = False`, nothing
else in `dataFiles` changes, the upload queue is untouched (the enqueue
always fails, see `enqueue_media_uploadQueue`), and no `/media` POST is
emitted. -/
theorem add_new_line_ok (en : Bool) (st : Sys) (key : String) (line : Line)
    (raw : Option (List Nat)) (resp : Option Nat) (st' : Sys) (evs : List Ev)
    (hrun : add_new_line en st key line raw resp = .ok (st', evs)) :
    ∃ t, (file_to_dict (st.dataFiles key)).transcript = some t ∧
      (∀ kk, st'.dataFiles kk = (if kk = key then
        some (appendedDict (file_to_dict (st.dataFiles key)) line)
        else st.dataFiles kk)) ∧
      st'.uploadQueue = st.uploadQueue ∧
      (∀ e ∈ evs, ∀ pk pn, e ≠ Ev.mediaPost pk pn) := by
  simp only [add_new_line] at hrun
  split at hrun
  · exact absurd hrun (by simp)
  rename_i t hd
  have hdict : ∀ k, (if k = key then
      some (appendedDict (file_to_dict (st.dataFiles key)) line)
      else st.dataFiles k) =
      (if k = key then
        some { file_to_dict (st.dataFiles key) with
               transcript := some (t ++ [appendedLine line t]) }
        else st.dataFiles k) := by
    intro k
    simp [appendedDict, hd]
  refine ⟨t, hd, ?_⟩
  split at hrun
  · -- relay enabled
    split at hrun
    · -- RequestError
      simp only [Except.ok.injEq, Prod.mk.injEq] at hrun
      obtain ⟨hst, hevs⟩ := hrun
      subst hst; subst hevs
      refine ⟨fun kk => by rw [hdict kk]; rfl, rfl, by simp⟩
    · -- got a status code
      split at hrun
      · -- 409
        simp only [sync_server, Except.ok.injEq, Prod.mk.injEq] at hrun
        obtain ⟨hst, hevs⟩ := hrun
        subst hst; subst hevs
        refine ⟨?_, ?_, ?_⟩
        · intro kk
          rw [enqueue_media_dataFiles, hdict kk]
          rfl
        · rw [enqueue_media_uploadQueue]
        · rw [enqueue_media_events]
          intro e he pk pn
          rcases List.mem_cons.mp he with rfl | he2
          · simp
          rcases List.mem_append.mp he2 with he3 | he4
          · split at he3 <;>
              first
                | exact absurd he3 (List.not_mem_nil e)
                | (rw [List.mem_singleton.mp he3]; simp)
          · rw [List.mem_singleton.mp he4]
            simp
      · split at hrun
        · -- other non-200 code
          simp only [Except.ok.injEq, Prod.mk.injEq] at hrun
          obtain ⟨hst, hevs⟩ := hrun
          subst hst; subst hevs
          refine ⟨fun kk => by rw [hdict kk]; rfl, rfl, by simp⟩
        · -- 200
          simp only [Except.ok.injEq, Prod.mk.injEq] at hrun
          obtain ⟨hst, hevs⟩ := hrun
          subst hst; subst hevs
          refine ⟨?_, ?_, ?_⟩
          · intro kk
            rw [enqueue_media_dataFiles, hdict kk]
            rfl
          · rw [enqueue_media_uploadQueue]
          · rw [enqueue_media_events]
            intro e he pk pn
            rcases List.mem_cons.mp he with rfl | he2
            · simp
            · rw [List.mem_singleton.mp he2]
              simp
  · -- relay disabled
    split at hrun
    · exact absurd hrun (by simp)
    · simp only [Except.ok.injEq, Prod.mk.injEq] at hrun
      obtain ⟨hst, hevs⟩ := hrun
      subst hst; subst hevs
      refine ⟨fun kk => by rw [hdict kk]; rfl, rfl, by simp⟩

/-- The fresh dict that `activate` persists for a new stream id. -/
def freshDict (info : StreamInfoObject) : StateDict :=
  { activeId := some info.stream_id, activeTitle := some info.stream_title,
    startTime := some info.start_time, mediaType := some info.media_type,
    isLive := some true, transcript := some [] }

/-- The updated dict that `activate` persists for the same stream id. -/
def sameDict (d : StateDict) (info : StreamInfoObject) : StateDict :=
  { d with
    isLive := some true
    activeTitle := some info.stream_title
    startTime := some info.start_time }

/-- Successful outcomes of `activate`: the stored dict becomes `freshDict`
(new id, upload queue drained) or `sameDict` (same id, queue untouched);
in both cases other keys are untouched and no `/media` POST is emitted. -/
theorem activate_ok (en : Bool) (st : Sys) (info : StreamInfoObject) (st' : Sys)
    (evs : List Ev) (hrun : activate en st info = .ok (st', evs)) :
    (((∀ kk, st'.dataFiles kk = (if kk = info.key then some (freshDict info)
        else st.dataFiles kk)) ∧ st'.uploadQueue = []) ∨
     ((∀ kk, st'.dataFiles kk = (if kk = info.key then
        some (sameDict (file_to_dict (st.dataFiles info.key)) info)
        else st.dataFiles kk)) ∧ st'.uploadQueue = st.uploadQueue)) ∧
    (∀ e ∈ evs, ∀ pk pn, e ≠ Ev.mediaPost pk pn) := by
  rcases hga : get_active_id (st.dataFiles info.key) with e | a
  · simp only [activate, hga] at hrun
    exact absurd hrun (by simp)
  · simp only [activate, hga] at hrun
    by_cases hid : info.stream_id = a
    · rw [if_neg (fun h => h hid)] at hrun
      simp only [Except.ok.injEq, Prod.mk.injEq] at hrun
      obtain ⟨hst, hevs⟩ := hrun
      subst hst; subst hevs
      refine ⟨Or.inr ⟨fun kk => rfl, rfl⟩, ?_⟩
      intro e he pk pn
      cases en <;> simp at he <;> rw [he] <;> simp
    · rw [if_pos hid] at hrun
      simp only [Except.ok.injEq, Prod.mk.injEq] at hrun
      obtain ⟨hst, hevs⟩ := hrun
      subst hst; subst hevs
      refine ⟨Or.inl ⟨?_, ?_⟩, ?_⟩
      · intro kk
        cases en <;> rfl
      · cases en <;> rfl
      · intro e he pk pn
        cases en <;> simp at he <;> rw [he] <;> simp

/-- **C9**.  Dense ids are an invariant of every storage operation: starting
from a state where every persisted transcript satisfies
`transcript[i].id == i`, each of `add_new_line`, `activate` and `deactivate`
preserves it, and `add_new_line` in particular appends a line whose id is
`last id + 1` (so `0` on an empty transcript). -/
theorem dense_ids_invariant (en : Bool) (st : Sys) (hinv : InvDense st) :
    (∀ k line raw resp st' evs,
      add_new_line en st k line raw resp = .ok (st', evs) →
        InvDense st' ∧
        ∀ t, (file_to_dict (st.dataFiles k)).transcript = some t →
          ∃ d', st'.dataFiles k = some d' ∧
            d'.transcript = some (t ++ [{ line with id := lastId t + 1, mediaAvailable := some false }]) ∧
            (t = [] → lastId t + 1 = 0)) ∧
    (∀ info st' evs, activate en st info = .ok (st', evs) → InvDense st') ∧
    (∀ k sid, InvDense (deactivate en st k sid).1) := by
  refine ⟨?_, ?_, ?_⟩
  · intro k line raw resp st' evs hrun
    obtain ⟨t, hd, hdata, -, -⟩ := add_new_line_ok en st k line raw resp st' evs hrun
    have hdense : denseIds t := by
      rcases h0 : st.dataFiles k with _ | d0
      · rw [h0] at hd
        simp [file_to_dict] at hd
      · rw [h0] at hd
        exact hinv k d0 h0 t hd
    constructor
    · intro kk dd hdd tt htt
      rw [hdata kk] at hdd
      by_cases hkk : kk = k
      · rw [if_pos hkk] at hdd
        obtain rfl : appendedDict (file_to_dict (st.dataFiles k)) line = dd :=
          Option.some.inj hdd
        simp only [appendedDict, hd, Option.getD_some] at htt
        obtain rfl : t ++ [appendedLine line t] = tt := Option.some.inj htt
        refine denseIds_append hdense ?_
        simp [appendedLine, denseIds_lastId hdense]
      · rw [if_neg hkk] at hdd
        exact hinv kk dd hdd tt htt
    · intro t' hd'
      rw [hd] at hd'
      obtain rfl : t = t' := Option.some.inj hd'
      refine ⟨appendedDict (file_to_dict (st.dataFiles k)) line, by rw [hdata k]; simp, ?_, ?_⟩
      · simp [appendedDict, appendedLine, hd]
      · intro ht0
        simp [ht0, lastId]
  · intro info st' evs hrun
    obtain ⟨hor, -⟩ := activate_ok en st info st' evs hrun
    rcases hor with ⟨hdata, -⟩ | ⟨hdata, -⟩ <;>
      · intro kk dd hdd tt htt
        rw [hdata kk] at hdd
        by_cases hkk : kk = info.key
        · rw [if_pos hkk] at hdd
          obtain rfl := Option.some.inj hdd
          first
            | (simp only [freshDict] at htt
               obtain rfl := Option.some.inj htt
               exact denseIds_nil)
            | (simp only [sameDict] at htt
               rcases h0 : st.dataFiles info.key with _ | d0
               · rw [h0] at htt
                 simp [file_to_dict] at htt
               · rw [h0] at htt
                 exact hinv info.key d0 h0 tt htt)
        · rw [if_neg hkk] at hdd
          exact hinv kk dd hdd tt htt
  · intro k sid kk dd hdd tt htt
    simp only [deactivate] at hdd
    by_cases hkk : kk = k
    · rw [if_pos hkk] at hdd
      obtain rfl := Option.some.inj hdd
      simp only at htt
      rcases h0 : st.dataFiles k with _ | d0
      · rw [h0] at htt
        simp [file_to_dict] at htt
      · rw [h0] at htt
        exact hinv k d0 h0 tt htt
    · rw [if_neg hkk] at hdd
      exact hinv kk dd hdd tt htt

/-- Witness for C9 at the empty system (no stored state, invariant holds
vacuously). -/
theorem dense_ids_invariant_witness :
    (∀ k line raw resp st' evs,
      add_new_line true emptySys k line raw resp = .ok (st', evs) →
        InvDense st' ∧
        ∀ t, (file_to_dict (emptySys.dataFiles k)).transcript = some t →
          ∃ d', st'.dataFiles k = some d' ∧
            d'.transcript = some (t ++ [{ line with id := lastId t + 1, mediaAvailable := some false }]) ∧
            (t = [] → lastId t + 1 = 0)) ∧
    (∀ info st' evs, activate true emptySys info = .ok (st', evs) → InvDense st') ∧
    (∀ k sid, InvDense (deactivate true emptySys k sid).1) :=
  dense_ids_invariant true emptySys (by
    intro k d hd
    simp [emptySys] at hd)

/-- One storage-level step of the system: a transcriber `add_new_line`, a
watcher `activate`/`deactivate`, or one iteration of the media upload
worker. -/
inductive SysStep (en : Bool) : Sys → List Ev → Sys → Prop where
  | addLine {st : Sys} (key : String) (line : Line) (raw : Option (List Nat))
      (resp : Option Nat) {st' : Sys} {evs : List Ev}
      (h : add_new_line en st key line raw resp = .ok (st', evs)) :
      SysStep en st evs st'
  | act {st : Sys} (info : StreamInfoObject) {st' : Sys} {evs : List Ev}
      (h : activate en st info = .ok (st', evs)) : SysStep en st evs st'
  | deact {st : Sys} (key sid : String) :
      SysStep en st (deactivate en st key sid).2 (deactivate en st key sid).1
  | work {st st' : Sys} {evs : List Ev} (h : worker_step en st = some (st', evs)) :
      SysStep en st evs st'

/-- States and event traces reachable from `init` by storage-level steps. -/
inductive Reach (en : Bool) (init : Sys) : Sys → List Ev → Prop where
  | refl : Reach en init init []
  | step {s : Sys} {tr : List Ev} {evs : List Ev} {s' : Sys} :
      Reach en init s tr → SysStep en s evs s' → Reach en init s' (tr ++ evs)

/-- A step from a state with an empty upload queue keeps the queue empty (the
enqueue constructor call always raises) and emits no `/media` POST. -/
theorem sysStep_no_media (en : Bool) {s : Sys} {evs : List Ev} {s' : Sys}
    (hs : SysStep en s evs s') (hqe : s.uploadQueue = []) :
    s'.uploadQueue = [] ∧ ∀ e ∈ evs, ∀ pk pn, e ≠ Ev.mediaPost pk pn := by
  cases hs with
  | addLine key line raw resp h =>
    obtain ⟨t, -, -, hq', hevs⟩ := add_new_line_ok en s key line raw resp _ _ h
    exact ⟨hq'.trans hqe, hevs⟩
  | act info h =>
    obtain ⟨hor, hevs⟩ := activate_ok en s info _ _ h
    rcases hor with ⟨-, hq'⟩ | ⟨-, hq'⟩
    · exact ⟨hq', hevs⟩
    · exact ⟨hq'.trans hqe, hevs⟩
  | deact key sid =>
    refine ⟨hqe, ?_⟩
    intro e he pk pn
    simp only [deactivate] at he
    split at he
    · rw [List.mem_singleton.mp he]
      simp
    · exact absurd he (List.not_mem_nil e)
  | work h =>
    simp only [worker_step, hqe] at h
    exact Option.noConfusion h

/-- Every reachable state has an empty upload queue, hence the worker never
fires and no `/media` POST ever appears in the trace. -/
theorem reach_empty_queue_no_media (en : Bool) (init : Sys)
    (hq : init.uploadQueue = []) (s : Sys) (tr : List Ev)
    (hreach : Reach en init s tr) :
    s.uploadQueue = [] ∧ ∀ e ∈ tr, ∀ pk pn, e ≠ Ev.mediaPost pk pn := by
  induction hreach with
  | refl => exact ⟨hq, by simp⟩
  | step hr hs ih =>
    obtain ⟨hqe, hmedia⟩ := ih
    obtain ⟨hq', hevs⟩ := sysStep_no_media en hs hqe
    refine ⟨hq', ?_⟩
    intro e he pk pn
    rcases List.mem_append.mp he with h1 | h2
    · exact hmedia e h1 pk pn
    · exact hevs e h2 pk pn

/-- **C3**.  (a) `add_new_line` with relay enabled and a 409 response emits, in
order, the `/line` POST, then the `/sync` POST carrying the full persisted
KeyState (including the new line), then the `_enqueue_media` call for that
line — so the sync strictly precedes the enqueue (and any `/media` POST).
(b) In every trace reachable from a state with an empty upload queue, every
`/media/<lineId>` POST for `(key, lineId)` is preceded by the `/line` POST for
the same `(key, lineId)`. -/
theorem line_sync_media_ordering (en : Bool) (init : Sys)
    (hq : init.uploadQueue = []) :
    (∀ st key line raw st' evs t,
      (file_to_dict (st.dataFiles key)).transcript = some t →
      add_new_line true st key line raw (some 409) = .ok (st', evs) →
        evs = [Ev.linePost key (lastId t + 1),
               Ev.syncPost key (appendedDict (file_to_dict (st.dataFiles key)) line),
               Ev.enqueueMedia key (lastId t + 1)]) ∧
    (∀ s tr, Reach en init s tr →
      ∀ i k n, tr.get? i = some (Ev.mediaPost (.str k) (.int n)) →
        ∃ j, j < i ∧ tr.get? j = some (Ev.linePost k n)) := by
  constructor
  · intro st key line raw st' evs t ht hrun
    simp only [add_new_line, ht, sync_server, reduceIte] at hrun
    have hevs := congrArg Prod.snd (Except.ok.inj hrun)
    simp only at hevs
    rw [← hevs, enqueue_media_events]
    simp [appendedDict, appendedLine, ht]
  · intro s tr hreach i k n hi
    obtain ⟨-, hmedia⟩ := reach_empty_queue_no_media en init hq s tr hreach
    have hmem : Ev.mediaPost (.str k) (.int n) ∈ tr := List.get?_mem hi
    exact absurd rfl (hmedia _ hmem (.str k) (.int n))

/-- Witness for C3 at the empty initial system. -/
theorem line_sync_media_ordering_witness :
    (∀ st key line raw st' evs t,
      (file_to_dict (st.dataFiles key)).transcript = some t →
      add_new_line true st key line raw (some 409) = .ok (st', evs) →
        evs = [Ev.linePost key (lastId t + 1),
               Ev.syncPost key (appendedDict (file_to_dict (st.dataFiles key)) line),
               Ev.enqueueMedia key (lastId t + 1)]) ∧
    (∀ s tr, Reach true emptySys s tr →
      ∀ i k n, tr.get? i = some (Ev.mediaPost (.str k) (.int n)) →
        ∃ j, j < i ∧ tr.get? j = some (Ev.linePost k n)) :=
  line_sync_media_ordering true emptySys rfl

/-- The read/accumulate loop of `MPEGFixedBitrateWorker.start`, tracking the
byte buffer by its length (emission and chunk sizes depend only on counts).
`reads` are the successive values returned by `process.stdout.read(4096)`
(each at most 4096 bytes; `0` models the empty read at EOF/stall, which
breaks the loop).  A chunk is emitted once `len(buffer) >= chunk_size`; after
the loop, a final chunk is emitted iff `len(buffer) >= 4096`.  The stop-event
exit flushes the same way and is modelled by the end of the read list.
Returns the sizes of the emitted chunks in order. -/
def fb_run (chunk_size : Nat) : List Nat → Nat → List Nat
  | [], buffer => if 4096 ≤ buffer then [buffer] else []
  | r :: rs, buffer =>
    if r = 0 then (if 4096 ≤ buffer then [buffer] else [])
    else
      let b := buffer + r
      if b < chunk_size then fb_run chunk_size rs b
      else b :: fb_run chunk_size rs 0

/-- Full 4096-byte reads of a downloader stub that produces exactly `n` bytes
then EOF (fuelled recursion so that the kernel can evaluate it). -/
def readsOfAux : Nat → Nat → List Nat
  | 0, _ => []
  | fuel + 1, n =>
    if n = 0 then []
    else if n ≤ 4096 then [n]
    else 4096 :: readsOfAux fuel (n - 4096)

/-- The read sequence for an `n`-byte stub stream. -/
def readsOf (n : Nat) : List Nat := readsOfAux n n

/-- If fewer than 4096 bytes remain in total, the loop emits nothing. -/
theorem fb_run_drops (cs : Nat) :
    ∀ (rs : List Nat) (buf : Nat), buf + rs.sum < 4096 → 4096 ≤ cs →
      fb_run cs rs buf = [] := by
  intro rs
  induction rs with
  | nil =>
    intro buf h hcs
    simp only [fb_run]
    rw [if_neg (by omega)]
  | cons r rs ih =>
    intro buf h hcs
    simp only [List.sum_cons] at h
    simp only [fb_run]
    by_cases hr : r = 0
    · rw [if_pos hr, if_neg (by omega)]
    · rw [if_neg hr, if_pos (by omega)]
      exact ih (buf + r) (by omega) hcs

/-- With `chunk_size + 3000` total bytes arriving in reads of at most 4096
bytes, exactly one chunk is emitted, of size between `chunk_size` and
`chunk_size + 3000`; the trailing residual (at most 3000 bytes, hence below
the 4096 threshold) is dropped. -/
theorem fb_run_single (cs : Nat) (hcs : 4096 ≤ cs) :
    ∀ (reads : List Nat), (∀ r ∈ reads, 0 < r ∧ r ≤ 4096) →
      ∀ buf, buf < cs → buf + reads.sum = cs + 3000 →
      ∃ b, fb_run cs reads buf = [b] ∧ cs ≤ b ∧ b ≤ cs + 3000 := by
  intro reads
  induction reads with
  | nil =>
    intro _ buf hb hsum
    simp only [List.sum_nil] at hsum
    omega
  | cons r rs ih =>
    intro hpos buf hb hsum
    obtain ⟨hr0, hr4096⟩ := hpos r (by simp)
    simp only [List.sum_cons] at hsum
    simp only [fb_run]
    rw [if_neg (by omega)]
    by_cases hlt : buf + r < cs
    · rw [if_pos hlt]
      exact ih (fun x hx => hpos x (by simp [hx])) (buf + r) hlt (by omega)
    · rw [if_neg hlt]
      refine ⟨buf + r, ?_, by omega, by omega⟩
      rw [fb_run_drops cs rs 0 (by omega) hcs]

/-- **C6** (counterexample).  Feeding exactly
`bufferSizeSeconds × sampleRate + 3000 = 6 × 20000 + 3000 = 123000` bytes then
EOF (full 4096-byte reads) emits exactly ONE chunk — of 122880 bytes, the
first multiple of the 4096-byte read size at or above 120000 — not the
claimed two chunks of 120000 and 3000 bytes: the 3000-byte trailing residual
is below the 4096-byte (4 KiB) threshold and is dropped. -/
theorem fixedbitrate_two_chunk_counterexample :
    (readsOf 123000).sum = 123000 ∧
    fb_run 120000 (readsOf 123000) 0 = [122880] ∧
    fb_run 120000 (readsOf 123000) 0 ≠ [120000, 3000] := by
  refine ⟨by decide, by decide, by decide⟩

/-- **C6** (amended).  For every way the `123000 = 6 × 20000 + 3000` stub
bytes can arrive in positive reads of at most 4096 bytes, the chunker emits
exactly one chunk, of between 120000 and 123000 bytes (the ≤ 3000-byte
residual being under the 4 KiB EOF threshold); and in general, at end of
stream a final chunk is emitted iff the residual buffer is at least 4096
bytes. -/
theorem fixedbitrate_chunking_amended (reads : List Nat)
    (hreads : ∀ r ∈ reads, 0 < r ∧ r ≤ 4096) (hsum : reads.sum = 123000) :
    (∃ b, fb_run 120000 reads 0 = [b] ∧ 120000 ≤ b ∧ b ≤ 123000) ∧
    (∀ cs buf, fb_run cs [] buf = if 4096 ≤ buf then [buf] else []) := by
  refine ⟨?_, fun cs buf => rfl⟩
  have := fb_run_single 120000 (by omega) reads hreads 0 (by omega) (by omega)
  simpa using this

/-- Witness for the amended C6 at the aligned read sequence. -/
theorem fixedbitrate_chunking_amended_witness :
    (∃ b, fb_run 120000 (readsOf 123000) 0 = [b] ∧ 120000 ≤ b ∧ b ≤ 123000) ∧
    (∀ cs buf, fb_run cs [] buf = if 4096 ≤ buf then [buf] else []) :=
  fixedbitrate_chunking_amended (readsOf 123000) (by decide) (by decide)

/-- Python `str.replace`, fuelled so the kernel can evaluate it: scan left to
right, replace non-overlapping occurrences, and continue after the
replacement.  The fuel `s.length` suffices because every step consumes at
least one character of the remaining text (the decensor table never uses an
empty pattern, which is excluded by the `p ≠ []` guard). -/
def replaceFuel (p r : List Char) : Nat → List Char → List Char
  | 0, s => s
  | fuel + 1, s =>
    match s with
    | [] => []
    | c :: cs =>
      if p.isPrefixOf (c :: cs) ∧ p ≠ [] then
        r ++ replaceFuel p r fuel ((c :: cs).drop p.length)
      else c :: replaceFuel p r fuel cs

/-- `text.replace(p, r)` on character lists. -/
def pyReplace (s p r : List Char) : List Char := replaceFuel p r s.length s

/-- Whether pattern `p` occurs anywhere in `s`. -/
def occurs (p : List Char) : List Char → Bool
  | [] => p.isPrefixOf []
  | c :: cs => p.isPrefixOf (c :: cs) || occurs p cs

/-- ASCII `str.lower`. -/
def pyLower (s : List Char) : List Char := s.map Char.toLower

/-- ASCII `str.capitalize`: first character upper-cased, rest lower-cased. -/
def pyCapitalize : List Char → List Char
  | [] => []
  | c :: cs => Char.toUpper c :: cs.map Char.toLower

/-- The decensor `word_map`, in source order. -/
def word_map : List (String × String) :=
  [("f**k", "fuck"), ("f***ing", "fucking"), ("f*****g", "fucking"),
   ("f******", "fucking"), ("fuck***t", "fucking bullshit"), ("fuck***", "fucking"),
   ("f**ing", "fucking"), ("f*****", "fucker"), ("f***", "fuck"), ("f**", "fuck"),
   ("sh**", "shit"), ("s**t", "shit"), ("s***", "shit"), ("a**", "ass"),
   ("b**ch", "bitch"), ("b***h", "bitch"), ("c***", "cunt"), ("p***y", "pussy"),
   ("d**n", "damn"), ("****", "fuck")]

/-- One iteration of the decensor loop: replace the lower-case form, then the
capitalized form. -/
def decensorStep (text : List Char) (wm : String × String) : List Char :=
  let t1 := pyReplace text (pyLower wm.1.data) (pyLower wm.2.data)
  pyReplace t1 (pyCapitalize wm.1.data) (pyCapitalize wm.2.data)

/-- `ProcessAudio.decensor`: for each map entry in order, replace the
lower-case form, then the capitalized form. -/
def decensor (s : List Char) : List Char :=
  word_map.foldl decensorStep s

/-- **C5** (counterexample).  The decensor map is NOT a fixed point on its own
output: on seven asterisks, the first pass rewrites the leading four stars
(last rule, `**** → fuck`) leaving `fuck***`, and only a second pass applies
the earlier rule `fuck*** → fucking`.  So `decensor (decensor s) ≠ decensor s`
at `s = "*******"`. -/
theorem decensor_not_idempotent :
    decensor "*******".data = "fuck***".data ∧
    decensor (decensor "*******".data) = "fucking".data ∧
    decensor (decensor "*******".data) ≠ decensor "*******".data := by
  refine ⟨by decide, by decide, by decide⟩

/-- Replacing a pattern that does not occur is the identity, at any fuel. -/
theorem replace_id (p r : List Char) :
    ∀ (s : List Char), occurs p s = false → ∀ fuel, replaceFuel p r fuel s = s := by
  intro s
  induction s with
  | nil =>
    intro _ fuel
    cases fuel <;> rfl
  | cons c cs ih =>
    intro h fuel
    simp only [occurs, Bool.or_eq_false_iff] at h
    cases fuel with
    | zero => rfl
    | succ n =>
      simp only [replaceFuel]
      rw [if_neg (fun hcon => by rw [h.1] at hcon; simp at hcon)]
      rw [ih h.2 n]

/-- A text in which no censored form (lower-case or capitalized) occurs is a
fixed point of the decensor loop. -/
theorem foldl_decensorStep_id :
    ∀ (l : List (String × String)) (s : List Char),
      (∀ wm ∈ l, occurs (pyLower wm.1.data) s = false ∧
        occurs (pyCapitalize wm.1.data) s = false) →
      l.foldl decensorStep s = s := by
  intro l
  induction l with
  | nil => intro s _; rfl
  | cons wm l ih =>
    intro s h
    obtain ⟨h1, h2⟩ := h wm (by simp)
    have hstep : decensorStep s wm = s := by
      simp only [decensorStep, pyReplace]
      rw [replace_id _ _ _ h1, replace_id _ _ _ h2]
    rw [List.foldl_cons, hstep]
    exact ih s (fun x hx => h x (by simp [hx]))

/-- **C5** (amended).  The decensor map is a fixed point on every output that
contains no censored form: whenever no `word_map` pattern (lower-case or
capitalized) occurs in `decensor s`, a second application leaves it
unchanged.  (The unconditional law fails; see the counterexample on seven
asterisks, whose first pass leaves the censored form `fuck***` behind.) -/
theorem decensor_idempotent_on_clean (s : List Char)
    (h : ∀ wm ∈ word_map, occurs (pyLower wm.1.data) (decensor s) = false ∧
      occurs (pyCapitalize wm.1.data) (decensor s) = false) :
    decensor (decensor s) = decensor s :=
  foldl_decensorStep_id word_map (decensor s) h

/-- Witness for the amended C5: `"f**k"` decensors to `"fuck"`, which is
pattern-free, so a second application is the identity there. -/
theorem decensor_idempotent_on_clean_witness :
    decensor (decensor "f**k".data) = decensor "f**k".data :=
  decensor_idempotent_on_clean "f**k".data (by decide)

/-- A `streamers[]` config entry as a Python dict: `key` and `media_type` may
each be absent. -/
structure StreamerCfg where
  key : Option String
  media_type : Option String
deriving DecidableEq, Repr

/-- `Config.get_streamer_config`: first streamer dict whose `key` entry equals
the requested key; `none` models the empty (falsy) dict returned otherwise. -/
def get_streamer_config (streamers : List StreamerCfg) (key : String) :
    Option StreamerCfg :=
  streamers.find? (fun s => s.key == some key)

/-- ASCII `str.lower` on a `String`. -/
def pyLowerStr (s : String) : String := String.mk (s.data.map Char.toLower)

/-- The configured media type for a key:
`key_config.get("media_type", Media.NONE)` when the key has a config,
`Media.NONE` otherwise. -/
def configured_media_type (streamers : List StreamerCfg) (key : String) : String :=
  match get_streamer_config streamers key with
  | some cfg => cfg.media_type.getD "none"
  | none => "none"

/-- `StreamHelper.get_media_type`: start from the configured media type and
downgrade video to audio when `"twitch.tv" in url.lower()`. -/
def get_media_type (streamers : List StreamerCfg) (url key : String) : String :=
  let media_type := configured_media_type streamers key
  if occurs "twitch.tv".data (pyLowerStr url).data && media_type == "video" then
    "audio"
  else media_type

/-- The claim's reading, written from its words: the effective media type is
the configured one, except forced to audio whenever the URL contains
`twitch.tv`, regardless of the configured value. -/
def claimed_media_type (streamers : List StreamerCfg) (url key : String) : String :=
  if occurs "twitch.tv".data (pyLowerStr url).data then "audio"
  else configured_media_type streamers key

/-- **C7** (counterexample).  With `media_type: none` configured and a Twitch
URL, `get_media_type` returns `"none"`, not `"audio"`: the code forces audio
only when the configured type is video, so the claim's "regardless of the
configured value" is false. -/
theorem get_media_type_not_forced_counterexample :
    get_media_type [{ key := some "k", media_type := some "none" }]
      "https://twitch.tv/x" "k" = "none" ∧
    claimed_media_type [{ key := some "k", media_type := some "none" }]
      "https://twitch.tv/x" "k" = "audio" ∧
    get_media_type [{ key := some "k", media_type := some "none" }]
      "https://twitch.tv/x" "k" ≠
    claimed_media_type [{ key := some "k", media_type := some "none" }]
      "https://twitch.tv/x" "k" := by
  refine ⟨by decide, by decide, by decide⟩

/-- **C7** (amended).  The effective media type equals the configured one,
except that it is forced to audio exactly when the URL contains `twitch.tv`
(case-insensitively) AND the configured type is video. -/
theorem get_media_type_spec (streamers : List StreamerCfg) (url key : String) :
    (occurs "twitch.tv".data (pyLowerStr url).data = true ∧
      configured_media_type streamers key = "video" →
        get_media_type streamers url key = "audio") ∧
    (occurs "twitch.tv".data (pyLowerStr url).data = false ∨
      configured_media_type streamers key ≠ "video" →
        get_media_type streamers url key = configured_media_type streamers key) := by
  constructor
  · rintro ⟨htw, hv⟩
    simp [get_media_type, htw, hv]
  · intro h
    rcases h with htw | hv
    · simp [get_media_type, htw]
    · simp only [get_media_type]
      rw [if_neg]
      simp only [Bool.and_eq_true, beq_iff_eq]
      exact fun hcon => hv hcon.2

/-- Witness for the amended C7 at a video-configured Twitch key and a
none-configured Twitch key. -/
theorem get_media_type_spec_witness :
    get_media_type [{ key := some "k", media_type := some "video" }]
      "https://twitch.tv/x" "k" = "audio" ∧
    get_media_type [{ key := some "k", media_type := some "none" }]
      "https://twitch.tv/x" "k" =
      configured_media_type [{ key := some "k", media_type := some "none" }] "k" :=
  ⟨(get_media_type_spec [{ key := some "k", media_type := some "video" }]
      "https://twitch.tv/x" "k").1 ⟨by decide, by decide⟩,
   (get_media_type_spec [{ key := some "k", media_type := some "none" }]
      "https://twitch.tv/x" "k").2 (Or.inr (by decide))⟩

/-- One pending fragment sequence as seen by a `DASHWorker._monitor_loop`
directory scan, with the outcomes of the external calls for it: `numFiles`
non-empty fragment files, `completeAV` the `_is_complete_av` probe of a single
file, `mergeOk` the `_merge_fragments` (ffmpeg) result, `duration` the
`_get_chunk_duration` of the merged payload (a float, modelled as a
rational), `size` its byte count. -/
structure FragSeq where
  seq : Nat
  numFiles : Nat
  completeAV : Bool
  mergeOk : Bool
  duration : Rat
  size : Nat
deriving DecidableEq

/-- The loop state: `last_seq`, `current_stream_time`, and the assembly
buffer's accumulated duration and byte count. -/
structure ScanState where
  lastSeq : Nat
  streamTime : Rat
  bufDur : Rat
  bufLen : Nat
deriving DecidableEq

/-- The readiness condition of `_monitor_loop`: video mode needs at least two
files, or one file that is a complete AV container; audio mode needs one
file. -/
def is_ready (video : Bool) (f : FragSeq) : Bool :=
  if video then decide (2 ≤ f.numFiles) || (decide (f.numFiles = 1) && f.completeAV)
  else decide (1 ≤ f.numFiles)

/-- The `for seq in sequences:` body of one scan, over the pending sequences
in ascending order.  A ready sequence is muxed: on success the buffer grows
(when `duration > 0`), `last_seq := seq`, and once the buffer reaches
`buffer_size_seconds - 0.2` (the float `0.2` modelled as the rational `1/5`)
a chunk `(audioStartTime, size)` is emitted and the buffer resets; on mux
failure the sequence is only logged and the loop CONTINUES with the next
sequence.  A non-ready sequence breaks the loop. -/
def processSeqs (video : Bool) (bss : Rat) :
    List FragSeq → ScanState → List (Rat × Nat) → ScanState × List (Rat × Nat)
  | [], st, out => (st, out)
  | f :: fs, st, out =>
    if is_ready video f then
      if f.mergeOk then
        let st1 :=
          if 0 < f.duration then
            { st with bufDur := st.bufDur + f.duration, bufLen := st.bufLen + f.size }
          else st
        let st2 := { st1 with lastSeq := f.seq }
        if bss - 1/5 ≤ st2.bufDur then
          processSeqs video bss fs
            { st2 with streamTime := st2.streamTime + st2.bufDur, bufDur := 0, bufLen := 0 }
            (out ++ [(st2.streamTime, st2.bufLen)])
        else
          processSeqs video bss fs st2 out
      else
        processSeqs video bss fs st out
    else (st, out)

/-- The `seq <= last_seq` resilience filter applied when the next scan groups
fragments: only sequences strictly above `last_seq` stay pending. -/
def pendingFilter (last : Nat) (fs : List FragSeq) : List FragSeq :=
  fs.filter (fun f => decide (last < f.seq))

/-- The C8 counterexample scan: sequence 5 is ready but its mux fails;
sequence 6 is ready, muxes, and fills the buffer. -/
def c8Fail : FragSeq := { seq := 5, numFiles := 1, completeAV := false,
                          mergeOk := false, duration := 6, size := 100 }

/-- The successful later sequence of the C8 counterexample. -/
def c8Next : FragSeq := { seq := 6, numFiles := 1, completeAV := false,
                          mergeOk := true, duration := 6, size := 100 }

/-- **C8** (counterexample).  In audio mode with `buffer_size_seconds = 6`,
when the mux of sequence 5 fails and sequence 6 in the same scan succeeds,
`last_seq` ends at 6 — strictly past the failed sequence 5 — and the next
scan's `seq <= last_seq` filter drops sequence 5 forever, contradicting
"last_sequence is never advanced past that sequence ... retried on the next
directory scan". -/
theorem dash_failed_seq_skipped :
    c8Fail.mergeOk = false ∧
    (processSeqs false 6 [c8Fail, c8Next] ⟨0, 100, 0, 0⟩ []).1.lastSeq = 6 ∧
    (processSeqs false 6 [c8Fail, c8Next] ⟨0, 100, 0, 0⟩ []).2 = [(100, 100)] ∧
    pendingFilter (processSeqs false 6 [c8Fail, c8Next] ⟨0, 100, 0, 0⟩ []).1.lastSeq
      [c8Fail, c8Next] = [] := by
  refine ⟨rfl, ?_, ?_, ?_⟩ <;>
    norm_num [processSeqs, is_ready, c8Fail, c8Next, pendingFilter]

/-- A scan segment containing no ready-and-successfully-muxed sequence never
moves `last_seq`. -/
theorem processSeqs_no_success (video : Bool) (bss : Rat) :
    ∀ (fs : List FragSeq) (st : ScanState) (out : List (Rat × Nat)),
      (∀ g ∈ fs, ¬(is_ready video g = true ∧ g.mergeOk = true)) →
      (processSeqs video bss fs st out).1.lastSeq = st.lastSeq := by
  intro fs
  induction fs with
  | nil => intro st out _; rfl
  | cons g gs ih =>
    intro st out h
    simp only [processSeqs]
    by_cases hr : is_ready video g
    · rw [if_pos hr]
      have hm : g.mergeOk = false := by
        rcases hmo : g.mergeOk with _ | _
        · rfl
        · exact absurd ⟨hr, hmo⟩ (h g (by simp))
      rw [hm]
      simp only [Bool.false_eq_true, if_neg, ite_false]
      exact ih st out (fun x hx => h x (by simp [hx]))
    · rw [if_neg hr]

/-- **C8** (amended).  A failed mux does not itself advance `last_seq`: if the
sequences of a scan are strictly ascending and all above the current
`last_seq`, a ready sequence `f` whose mux fails, with no later sequence in
the scan that is ready and muxes successfully, leaves the final `last_seq`
strictly below `f.seq`, so `f` survives the next scan's `seq <= last_seq`
filter and is retried.  (When a later sequence does mux successfully,
`last_seq` jumps past `f` and `f` is dropped — see the counterexample.) -/
theorem dash_merge_failure_retry (video : Bool) (bss : Rat) :
    ∀ (seqs : List FragSeq) (st : ScanState) (out : List (Rat × Nat)) (f : FragSeq),
      List.Pairwise (fun a b => a.seq < b.seq) seqs →
      st.lastSeq < f.seq →
      f ∈ seqs →
      f.mergeOk = false →
      (∀ g ∈ seqs, f.seq < g.seq → ¬(is_ready video g = true ∧ g.mergeOk = true)) →
      (processSeqs video bss seqs st out).1.lastSeq < f.seq ∧
      f ∈ pendingFilter (processSeqs video bss seqs st out).1.lastSeq seqs := by
  intro seqs
  induction seqs with
  | nil =>
    intro st out f _ _ hf
    exact absurd hf (List.not_mem_nil f)
  | cons g gs ih =>
    intro st out f hsorted hlast hf hfail hlater
    have hmain : (processSeqs video bss (g :: gs) st out).1.lastSeq < f.seq := by
      simp only [processSeqs]
      rcases List.mem_cons.mp hf with rfl | hfgs
      · -- f is the head
        by_cases hr : is_ready video f
        · rw [if_pos hr, hfail]
          simp only [Bool.false_eq_true, if_neg, ite_false]
          rw [processSeqs_no_success video bss gs st out ?_]
          · exact hlast
          · intro x hx
            exact hlater x (by simp [hx]) ((List.pairwise_cons.mp hsorted).1 x hx)
        · rw [if_neg hr]
          exact hlast
      · -- f is further on; g comes first
        have hgf : g.seq < f.seq := (List.pairwise_cons.mp hsorted).1 f hfgs
        have htail := (List.pairwise_cons.mp hsorted).2
        by_cases hr : is_ready video g
        · rw [if_pos hr]
          rcases hmo : g.mergeOk with _ | _
          · simp only [Bool.false_eq_true, if_neg, ite_false]
            exact (ih st out f htail hlast hfgs hfail
              (fun x hx hlt => hlater x (by simp [hx]) hlt)).1
          · simp only [if_pos rfl, ite_true]
            by_cases hemit : bss - 1/5 ≤
                (if 0 < g.duration then
                  { st with bufDur := st.bufDur + g.duration,
                            bufLen := st.bufLen + g.size }
                 else st).bufDur
            · rw [if_pos hemit]
              exact (ih _ _ f htail hgf hfgs hfail
                (fun x hx hlt => hlater x (by simp [hx]) hlt)).1
            · rw [if_neg hemit]
              exact (ih _ _ f htail hgf hfgs hfail
                (fun x hx hlt => hlater x (by simp [hx]) hlt)).1
        · rw [if_neg hr]
          exact hlast
    refine ⟨hmain, List.mem_filter.mpr ⟨hf, by simpa using hmain⟩⟩

/-- Witness for the amended C8: a lone failing ready sequence leaves
`last_seq` at 0 and stays pending for the next scan. -/
theorem dash_merge_failure_retry_witness :
    (processSeqs false 6 [c8Fail] ⟨0, 100, 0, 0⟩ []).1.lastSeq < c8Fail.seq ∧
    c8Fail ∈ pendingFilter (processSeqs false 6 [c8Fail] ⟨0, 100, 0, 0⟩ []).1.lastSeq
      [c8Fail] :=
  dash_merge_failure_retry false 6 [c8Fail] ⟨0, 100, 0, 0⟩ [] c8Fail
    (by simp) (by decide) (by simp) rfl
    (fun g hg hlt => by
      rcases List.mem_singleton.mp hg with rfl
      omega)
